import Mathlib

/-!
Verification of the motion/expression scheduling engine of the
pixi-live2d-display fork (src/cubism-common/MotionManager.ts and its
collaborators), against the repository's specification.

The embedding is shallow: the TypeScript class state becomes an explicit
`Manager` structure, methods become pure functions from a manager (plus the
inputs the method reads from its environment, such as `config.sound` or the
runtime bridge's `isFinished()` result) to the updated manager together with
the observable effects they perform (event emissions, log lines, runtime
bridge calls), collected in a `List Ev`.

`MotionState` is imported by MotionManager.ts from
`@/cubism-common/MotionState`, a file that is not part of this source
snapshot; it is therefore modelled from the specification's description
(spec §3, §4.1) instead of from source.  Everything else is translated from
MotionManager.ts.
-/

namespace PixiLive2D

/-- Modelled from the spec: the `MotionPriority` enumeration of
`@/cubism-common/MotionState` (file absent from the snapshot).  Spec §3:
"an ordered enumeration {IDLE < NORMAL < FORCE}". -/
inductive MotionPriority
  | IDLE
  | NORMAL
  | FORCE
deriving DecidableEq

/-- Numeric rank of a priority, with `0` reserved for "no claim holds the
slot" (an empty reservation/playing slot ranks below every priority). -/
def MotionPriority.val : MotionPriority → Nat
  | .IDLE => 1
  | .NORMAL => 2
  | .FORCE => 3

/-- Modelled from the spec: one claim on the arbitration slot — a
(group, index, priority) triple (spec §3 "reserved (group, index, priority)
pending start, currently-playing (group, index, priority)"). -/
structure MotionClaim where
  group : String
  index : Nat
  priority : MotionPriority
deriving DecidableEq

/-- Modelled from the spec: the `MotionState` arbitration snapshot of
`@/cubism-common/MotionState` (file absent from the snapshot).  Spec §3:
"reserved (group, index, priority) pending start, currently-playing
(group, index, priority), and a flag for whether the previous motion's
expression override should be restored". -/
structure MotionState where
  reserved : Option MotionClaim
  playing : Option MotionClaim
  restoreFlag : Bool
deriving DecidableEq

/-- Priority rank of whoever currently holds the reservation/playing slot:
the strongest of the reserved and playing claims, `0` when both are empty. -/
def MotionState.currentPrio (s : MotionState) : Nat :=
  max (s.reserved.elim 0 (·.priority.val)) (s.playing.elim 0 (·.priority.val))

/-- Modelled from the spec (§4.1): "`reserve(group, index, priority)` →
succeeds (returns true) if no higher-or-equal priority motion currently
holds the reservation/playing slot, else fails (false) and leaves state
unchanged.  FORCE always succeeds and evicts any existing claim." -/
def MotionState.reserve (s : MotionState) (g : String) (i : Nat) (p : MotionPriority) :
    Bool × MotionState :=
  if p = .FORCE ∨ s.currentPrio < p.val then
    (true, { s with reserved := some ⟨g, i, p⟩, playing := none })
  else
    (false, s)

/-- Modelled from the spec (§4.1): "`start(motion, group, index, priority)` →
transitions `reserved`→`playing` only if this call's (group, index) still
matches the last successful reservation; returns false and state is
unchanged otherwise."  Starting a non-idle motion raises the
expression-override flag (spec §4.1 `shouldOverrideExpression` policy). -/
def MotionState.start (s : MotionState) (_motion : Option Nat) (g : String) (i : Nat)
    (p : MotionPriority) : Bool × MotionState :=
  match s.reserved with
  | some c =>
      if c.group = g ∧ c.index = i then
        (true, { reserved := none, playing := some ⟨g, i, p⟩,
                 restoreFlag := p ≠ .IDLE })
      else
        (false, s)
  | none => (false, s)

/-- Modelled from the spec (§4.1): "`isActive(group, index)` → true if that
exact motion is the one reserved or playing." -/
def MotionState.isActive (s : MotionState) (g : String) (i : Nat) : Bool :=
  (match s.reserved with
   | some c => c.group == g && c.index == i
   | none => false) ||
  (match s.playing with
   | some c => c.group == g && c.index == i
   | none => false)

/-- Modelled from the spec (§3, §4.1): reads the flag for whether the
previous motion's expression override should be restored/reset. -/
def MotionState.shouldOverrideExpression (s : MotionState) : Bool :=
  s.restoreFlag

/-- Modelled from the spec (§4.1): "true exactly when the most recent motion
has completed and no replacement has been reserved". -/
def MotionState.shouldRequestIdleMotion (s : MotionState) : Bool :=
  s.playing.isNone && s.reserved.isNone

/-- Modelled from the spec (§4.1): "`complete()` → folds `playing`→`idle`". -/
def MotionState.complete (s : MotionState) : MotionState :=
  { s with playing := none, restoreFlag := false }

/-- Modelled from the spec (§4.1): "`reset()` → force-return to `idle`,
discarding any reservation". -/
def MotionState.reset : MotionState :=
  { reserved := none, playing := none, restoreFlag := false }

/-- One motion slot of `MotionManager.motionGroups` (MotionManager.ts:85):
`undefined` = not yet loaded, `null` = failed to load, otherwise the loaded
Motion (opaque handle, modelled as a `Nat`). -/
inductive Slot
  | unloaded
  | failed
  | loaded (handle : Nat)
deriving DecidableEq

/-- Observable effects of the manager: event emissions, log lines and calls
into the external collaborators (runtime bridge, expression manager, sound
instances). -/
inductive Ev
  | warn (msg : String)
  | logMsg
  | motionStart (g : String) (i : Nat) (soundInstance : Option Nat) (sound : Option Nat)
  | motionFinish
  | destroyEvent
  | resetExpression
  | setExpression (e : Nat)
  | restoreExpression
  | soundPlay (s : Nat)
  | soundStop (s : Nat)
  | soundDestroy (s : Nat)
  | runtimeStartMotion (m : Option Nat)
  | runtimeStopAll
  | expressionManagerDestroy
  | idleMotionRequest (g : String) (p : MotionPriority)
deriving DecidableEq

/-- State of a `MotionManager` instance (MotionManager.ts:45-130).  Motion
definitions and sounds are opaque to the engine and modelled as `Nat`
handles; an `AnalyserNode` is identified by the sound it taps.  `definitions`,
`motionGroups` and `sounds` are `Option`-wrapped because `destroy()` sets
them to `undefined`; a method that would dereference them then corresponds
to a thrown `TypeError`, modelled as `Except.error`. -/
structure Manager where
  definitions : Option (List (String × List Nat))
  motionGroups : Option (List (String × List Slot))
  state : MotionState
  motionActive : Bool
  destroyed : Bool
  playingSound : Bool
  currentSound : Option Nat
  currentAnalyser : Option Nat
  sounds : Option (List (String × List (Option Nat)))
  hasExpressionManager : Bool
  idleGroup : String
deriving DecidableEq

/-- Record lookup `record[group]` for the string-keyed objects
(`definitions`, `motionGroups`, `_sounds`). -/
def lookupGroup {α : Type} (l : List (String × α)) (g : String) : Option α :=
  (l.find? (fun p => p.1 == g)).map (·.2)

/-- JS array indexing on a motion-slot array: out-of-range and holes read as
`undefined`, i.e. `unloaded`. -/
def slotAt (slots : List Slot) (i : Nat) : Slot :=
  slots.getD i .unloaded

/-- The definition lookup `this.definitions[group]?.[index]`
(MotionManager.ts:190,255). -/
def defAt (defs : List (String × List Nat)) (g : String) (i : Nat) : Option Nat :=
  (lookupGroup defs g).bind (·.get? i)

/-- MotionManager.ts:189-204 `loadMotion`.  In this fork the method fetches
nothing: it warns and resolves `undefined` when the definition is absent or
the slot is marked failed, returns the handle when the slot is loaded, and
silently resolves `undefined` when the slot is not yet loaded.  The result
pairs the returned value with the warnings logged; `Except.error` marks the
would-throw dereferences of an invalidated/missing collection. -/
def loadMotion (m : Manager) (g : String) (i : Nat) :
    Except Unit (Option Nat × List Ev) :=
  match m.definitions with
  | none => .error ()
  | some defs =>
    match defAt defs g i with
    | none => .ok (none, [.warn "Undefined motion"])
    | some _ =>
      match m.motionGroups with
      | none => .error ()
      | some mgs =>
        match lookupGroup mgs g with
        | none => .error ()
        | some slots =>
          match slotAt slots i with
          | .failed => .ok (none, [.warn "failed to load"])
          | .loaded h => .ok (some h, [])
          | .unloaded => .ok (none, [])

/-- Truthiness of `options.expression` (a number in this model): JS treats
`0` as falsy, so an expression id of `0` is skipped (spec §9 notes this). -/
def exprTruthy : Option Nat → Bool
  | none => false
  | some e => e != 0

/-- MotionManager.ts:212-237 `speak`.  Returns the media instance produced
by `sound.play` (modelled as the sound's own handle), the updated manager
and the effects.  `cfgSound` is the global `config.sound` flag. -/
def speak (cfgSound : Bool) (m : Manager) (s : Nat) (optExpr : Option Nat) :
    Option Nat × Manager × List Ev :=
  if !cfgSound then (none, m, [])
  else
    let m1 := { m with currentSound := some s, currentAnalyser := some s }
    let ev1 :=
      if m1.state.shouldOverrideExpression && m1.hasExpressionManager then
        [Ev.resetExpression]
      else []
    let ev2 :=
      if exprTruthy optExpr && m1.hasExpressionManager then
        [Ev.setExpression (optExpr.getD 0)]
      else []
    let m2 := { m1 with playingSound := true }
    (some s, m2, ev1 ++ ev2 ++ [Ev.soundPlay s])

/-- The `complete` callback installed by `speak` (MotionManager.ts:226-232):
runs when the sound finishes, clearing the speak flags and resetting the
expression that was set for the speech. -/
def soundComplete (m : Manager) (optExpr : Option Nat) : Manager × List Ev :=
  ({ m with playingSound := false, currentSound := none, currentAnalyser := none },
   if exprTruthy optExpr && m.hasExpressionManager then [Ev.resetExpression] else [])

/-- MotionManager.ts:331-335 `stopSpeaking`: detaches the analyser and
nothing else. -/
def stopSpeaking (m : Manager) : Manager :=
  if m.currentAnalyser.isSome then { m with currentAnalyser := none } else m

/-- MotionManager.ts:340-346 `stopAllMotions`: runtime-level stop, state
reset, then `stopSpeaking`. -/
def stopAllMotions (m : Manager) : Manager × List Ev :=
  (stopSpeaking { m with state := MotionState.reset }, [Ev.runtimeStopAll])

/-- Result of one `startMotion` call: the resolved boolean, the manager
after the call, whether `state.reserve` and `loadMotion` were reached, the
sound instance started by the call (if any) and whether that instance was
stopped and destroyed again, plus the emitted effects in order. -/
structure StartResult where
  ok : Bool
  mgr : Manager
  reserveCalled : Bool
  loadCalled : Bool
  soundInstance : Option Nat
  soundStopped : Bool
  soundDestroyed : Bool
  events : List Ev
deriving DecidableEq

/-- Commit phase of `startMotion` (MotionManager.ts:272-296), entered after
the awaits: `m2` already carries any mutations performed during the awaits.
If `state.start` rejects the commit, a started sound instance is stopped
and destroyed and the call resolves false; otherwise the motion-start
effects run. -/
def commitMotion (m2 : Manager) (g : String) (i : Nat) (p2 : MotionPriority)
    (motion : Option Nat) (soundInstance : Option Nat) (sound : Option Nat)
    (spkExpr : Option Nat) (evPre : List Ev) : StartResult :=
  let sr := m2.state.start motion g i p2
  if sr.1 then
    let m3 := { m2 with state := sr.2 }
    let evOverride :=
      if m3.state.shouldOverrideExpression && m3.hasExpressionManager then
        [Ev.resetExpression]
      else []
    let evExpr :=
      if exprTruthy spkExpr && m3.hasExpressionManager then
        [Ev.setExpression (spkExpr.getD 0)]
      else []
    { ok := true, mgr := { m3 with motionActive := true },
      reserveCalled := true, loadCalled := true,
      soundInstance := soundInstance, soundStopped := false,
      soundDestroyed := false,
      events := evPre ++ evOverride ++ [Ev.logMsg, Ev.motionStart g i soundInstance sound]
        ++ evExpr ++ [Ev.runtimeStartMotion motion] }
  else
    match soundInstance with
    | some s =>
        { ok := false, mgr := { m2 with state := sr.2 },
          reserveCalled := true, loadCalled := true,
          soundInstance := some s, soundStopped := true,
          soundDestroyed := true,
          events := evPre ++ [Ev.soundStop s, Ev.soundDestroy s] }
    | none =>
        { ok := false, mgr := { m2 with state := sr.2 },
          reserveCalled := true, loadCalled := true,
          soundInstance := none, soundStopped := false,
          soundDestroyed := false, events := evPre }

/-- The registered-sound lookup `this._sounds?.[group]?.[index]`
(MotionManager.ts:266). -/
def regSound (m1 : Manager) (g : String) (i : Nat) : Option Nat :=
  match m1.sounds with
  | none => none
  | some tbl =>
    match lookupGroup tbl g with
    | none => none
    | some arr => arr.getD i none

/-- The sound block of `startMotion` (MotionManager.ts:261-270): under
`config.sound`, an explicit sound argument takes precedence over the
registered sound for the slot; either starts `speak` and elevates the
effective priority to FORCE.  Returns (sound instance, manager after,
effects, effective priority). -/
def soundStep (cfgSound : Bool) (m1 : Manager) (g : String) (i : Nat)
    (p : MotionPriority) (sound spkExpr : Option Nat) :
    Option Nat × Manager × List Ev × MotionPriority :=
  if cfgSound then
    match sound with
    | some s =>
      match speak cfgSound m1 s spkExpr with
      | (inst, m2, ev) => (inst, m2, ev, MotionPriority.FORCE)
    | none =>
      match regSound m1 g i with
      | some s =>
        match speak cfgSound m1 s spkExpr with
        | (inst, m2, ev) => (inst, m2, ev, MotionPriority.FORCE)
      | none => (none, m1, [], p)
  else (none, m1, [], p)

/-- Middle phase of `startMotion` (MotionManager.ts:255-296), after a
successful reservation: `m1` carries the reserved state.  Checks the
definition, awaits the load, runs the sound block, applies the modelled
interference, and commits. -/
def startMotionLoad (cfgSound : Bool) (m1 : Manager) (g : String) (i : Nat)
    (p : MotionPriority) (sound spkExpr : Option Nat)
    (interleave : MotionState → MotionState) : Except Unit StartResult :=
  match m1.definitions with
  | none => .error ()
  | some defs =>
    match defAt defs g i with
    | none =>
        .ok { ok := false, mgr := m1, reserveCalled := true,
              loadCalled := false, soundInstance := none,
              soundStopped := false, soundDestroyed := false, events := [] }
    | some _ =>
      match loadMotion m1 g i with
      | .error e => .error e
      | .ok (motion, evLoad) =>
        match soundStep cfgSound m1 g i p sound spkExpr with
        | (si, m2, evSound, p2) =>
          .ok (commitMotion { m2 with state := interleave m2.state } g i p2
                motion si sound spkExpr (evLoad ++ evSound))

/-- MotionManager.ts:249-297 `startMotion`.  `cfgSound` is `config.sound`;
`sound` the explicit sound argument; `spkExpr` is `speakOptions.expression`.
`interleave` models the `MotionState` mutations performed by other
cooperatively-scheduled tasks while this call is suspended at its awaits
(`loadMotion`, `speak`); a run with no interference passes `id`.
`Except.error` marks a thrown `TypeError` (dereferencing an invalidated
collection), which in the source rejects the returned promise. -/
def startMotion (cfgSound : Bool) (m : Manager) (g : String) (i : Nat)
    (p : MotionPriority) (sound : Option Nat) (spkExpr : Option Nat)
    (interleave : MotionState → MotionState) : Except Unit StartResult :=
  if m.playingSound then
    .ok { ok := false, mgr := m, reserveCalled := false, loadCalled := false,
          soundInstance := none, soundStopped := false, soundDestroyed := false,
          events := [] }
  else
    match m.state.reserve g i p with
    | (okR, st1) =>
      if okR = false then
        .ok { ok := false, mgr := { m with state := st1 },
              reserveCalled := true, loadCalled := false,
              soundInstance := none, soundStopped := false,
              soundDestroyed := false, events := [] }
      else
        startMotionLoad cfgSound { m with state := st1 } g i p sound spkExpr
          interleave

/-- Result of one `startRandomMotion` call: resolved boolean, manager after
the call, the index delegated to `startMotion` (if any), effects. -/
structure RandResult where
  res : Bool
  mgr : Manager
  delegated : Option Nat
  events : List Ev
deriving DecidableEq

/-- The `availableIndices` loop of `startRandomMotion`
(MotionManager.ts:310-316): indices below the group's definition count
whose slot is not `null` (failed) and which are not the active motion. -/
def eligibleIndices (st : MotionState) (g : String) (slots : List Slot)
    (len : Nat) : List Nat :=
  (List.range len).filter (fun i => slotAt slots i != Slot.failed && !(st.isActive g i))

/-- MotionManager.ts:306-326 `startRandomMotion`.  `rnd` stands for
`Math.floor(Math.random() * availableIndices.length)`; the JS contract
guarantees `rnd < availableIndices.length`, an out-of-range `rnd` is mapped
to the no-candidate result. -/
def startRandomMotion (cfgSound : Bool) (m : Manager) (g : String)
    (p : Option MotionPriority) (sound : Option Nat) (rnd : Nat)
    (interleave : MotionState → MotionState) : Except Unit RandResult :=
  match m.definitions with
  | none => .error ()
  | some defs =>
    match lookupGroup defs g with
    | none => .ok { res := false, mgr := m, delegated := none, events := [] }
    | some groupDefs =>
      if groupDefs.length = 0 then
        .ok { res := false, mgr := m, delegated := none, events := [] }
      else
        match m.motionGroups with
        | none => .error ()
        | some mgs =>
          match lookupGroup mgs g with
          | none => .error ()
          | some slots =>
            if (eligibleIndices m.state g slots groupDefs.length).isEmpty then
              .ok { res := false, mgr := m, delegated := none, events := [] }
            else
              match (eligibleIndices m.state g slots groupDefs.length).get? rnd with
              | none => .ok { res := false, mgr := m, delegated := none, events := [] }
              | some i =>
                match startMotion cfgSound m g i (p.getD .NORMAL) sound none interleave with
                | .error e => .error e
                | .ok r =>
                    .ok { res := r.ok, mgr := r.mgr, delegated := some i,
                          events := r.events }

/-- Result of one `update` call. -/
structure UpdateResult where
  res : Bool
  mgr : Manager
  events : List Ev
deriving DecidableEq

/-- MotionManager.ts:354-374 `update`.  `isFin` is the runtime bridge's
`isFinished()` answer and `updParams` the boolean returned by the abstract
`updateParameters(model, now)`.  The un-awaited idle
`startRandomMotion(idle, IDLE)` kick-off is recorded as an
`idleMotionRequest` effect (the source explicitly discards its promise). -/
def update (m : Manager) (isFin : Bool) (updParams : Bool) : UpdateResult :=
  if isFin then
    let step :=
      if m.motionActive then ({ m with motionActive := false }, [Ev.motionFinish])
      else (m, [])
    let m1 := step.1
    let ev1 := step.2
    let ev2 :=
      if m1.state.shouldOverrideExpression && m1.hasExpressionManager then
        [Ev.restoreExpression]
      else []
    let m2 := { m1 with state := m1.state.complete }
    let ev3 :=
      if m2.state.shouldRequestIdleMotion then
        [Ev.idleMotionRequest m2.idleGroup .IDLE]
      else []
    { res := updParams, mgr := m2, events := ev1 ++ ev2 ++ ev3 }
  else
    { res := updParams, mgr := m, events := [] }

/-- Sum of squared amplitudes over the analyser's time-domain buffer
(MotionManager.ts:386-388). -/
def sumSquares (buf : List ℚ) : ℚ :=
  (buf.map (fun a => a * a)).sum

/-- The `parseFloat(x.toFixed(1))` rounding to one decimal place
(MotionManager.ts:389), idealised over the reals. -/
noncomputable def round1 (x : ℝ) : ℝ :=
  (round (x * 10) : ℤ) / 10

/-- MotionManager.ts:380-393 `mouthSync`.  `buf` is the time-domain sample
buffer filled by `getFloatTimeDomainData` (length `fftSize`, samples
idealised as rationals); with no analyser attached the method returns `0`
without touching audio. -/
noncomputable def mouthSync (m : Manager) (buf : List ℚ) : ℝ :=
  match m.currentAnalyser with
  | some _ => round1 (Real.sqrt (((sumSquares buf / buf.length) * 20 : ℚ)))
  | none => 0

/-- MotionManager.ts:406-425 `destroy`.  The source has no re-entry guard:
it always sets the flag, emits `destroy`, stops speaking and motions,
clears the sound table (the `for..in` over an already-`undefined` table
iterates zero times, so a second call does not throw), destroys the
expression manager when present (the reference is never cleared) and
invalidates `definitions`/`motionGroups`. -/
def destroy (m : Manager) : Manager × List Ev :=
  let m1 := stopSpeaking { m with destroyed := true }
  let step := stopAllMotions m1
  let m2 := { step.1 with sounds := none }
  let evExpr := if m2.hasExpressionManager then [Ev.expressionManagerDestroy] else []
  ({ m2 with definitions := none, motionGroups := none },
   Ev.destroyEvent :: step.2 ++ evExpr)

/-- MotionManager.ts:28-37 `MotionPreloadStrategy`. -/
inductive MotionPreloadStrategy
  | ALL
  | IDLE
  | NONE
deriving DecidableEq

/-- Groups selected for preloading by `setupMotions`
(MotionManager.ts:155-169); the `default` switch case behaves like IDLE. -/
def preloadGroups (defs : List (String × List Nat)) (idleGroup : String) :
    MotionPreloadStrategy → List String
  | .NONE => []
  | .ALL => defs.map (·.1)
  | .IDLE => [idleGroup]

/-- Construction of a manager over the given definitions, as performed by
the constructor plus `init` (MotionManager.ts:125-142): `setupMotions`
initialises every group of `motionGroups` to an empty array and runs the
preload pass (whose `loadMotion` calls mutate nothing and only produce
warnings, their promises being discarded), then `stopAllMotions` runs.
Returns the constructed manager and the effects observed during
construction. -/
def mkManager (defs : List (String × List Nat)) (idleGroup : String)
    (hasExprMgr : Bool) (strategy : MotionPreloadStrategy) : Manager × List Ev :=
  let m0 : Manager := {
    definitions := some defs,
    motionGroups := some (defs.map (fun p => (p.1, []))),
    state := MotionState.reset,
    motionActive := false,
    destroyed := false,
    playingSound := false,
    currentSound := none,
    currentAnalyser := none,
    sounds := some [],
    hasExpressionManager := hasExprMgr,
    idleGroup := idleGroup }
  let preEvs :=
    ((preloadGroups defs idleGroup strategy).map (fun g =>
      match lookupGroup defs g with
      | none => []
      | some gdefs =>
        ((List.range gdefs.length).map (fun i =>
          match loadMotion m0 g i with
          | .ok out => out.2
          | .error _ => [])).flatten)).flatten
  let step := stopAllMotions m0
  (step.1, preEvs ++ step.2)

/-- Setup invariant established by `setupMotions`: every group present in
`definitions` has its (possibly still empty) slot array in `motionGroups`. -/
def groupsAligned (defs : List (String × List Nat))
    (mgs : List (String × List Slot)) : Bool :=
  defs.all (fun p => (lookupGroup mgs p.1).isSome)

/-- Baseline live manager used to instantiate witnesses. -/
def baseMgr : Manager :=
  { definitions := some [("idle", [0])],
    motionGroups := some [("idle", [])],
    state := MotionState.reset,
    motionActive := false,
    destroyed := false,
    playingSound := false,
    currentSound := none,
    currentAnalyser := none,
    sounds := some [],
    hasExpressionManager := true,
    idleGroup := "idle" }

/-- Interference used by the C2 witness: while the call is suspended, a
FORCE request for another motion replaces the reservation. -/
def ilC2 : MotionState → MotionState :=
  fun _ => ⟨some ⟨"other", 0, .FORCE⟩, none, false⟩

/-- Manager used by the C2 witness: one loaded motion at ("g", 0). -/
def mC2 : Manager :=
  { baseMgr with definitions := some [("g", [7])],
                 motionGroups := some [("g", [Slot.loaded 5])] }

/-- The run of the C2 witness: `startMotion` with an explicit sound, whose
reservation is superseded during the awaits. -/
def rC2 : StartResult :=
  match startMotion true mC2 "g" 0 .NORMAL (some 9) none ilC2 with
  | .ok r => r
  | .error _ =>
      { ok := false, mgr := mC2, reserveCalled := false, loadCalled := false,
        soundInstance := none, soundStopped := false, soundDestroyed := false,
        events := [] }

/-- Manager used by the C4 witness: slot 0 loaded, slot 1 failed. -/
def mC4 : Manager :=
  { baseMgr with definitions := some [("g", [7, 8])],
                 motionGroups := some [("g", [Slot.loaded 5, Slot.failed])] }

/-- Manager used by the C7 counterexample: the definition at ("g", 0)
exists but its slot is not yet loaded. -/
def mC7 : Manager :=
  { baseMgr with definitions := some [("g", [5])],
                 motionGroups := some [("g", [])] }

/-- Manager used by the C7 witness: a loaded slot. -/
def mC7b : Manager :=
  { baseMgr with definitions := some [("g", [5])],
                 motionGroups := some [("g", [Slot.loaded 9])] }

/-- The manager of the C6 scenario: idle group with two definitions,
preload strategy IDLE, as built by the constructor. -/
def mC6 : Manager := (mkManager [("idle", [10, 11])] "idle" false .IDLE).1

/-- Helper: a successful `reserve` replaces every prior claim with the new
one, leaving the restore flag alone. -/
theorem reserve_eviction (s : MotionState) (g : String) (i : Nat)
    (p : MotionPriority) (h : p = .FORCE ∨ s.currentPrio < p.val) :
    s.reserve g i p =
      (true, { reserved := some ⟨g, i, p⟩, playing := none,
               restoreFlag := s.restoreFlag }) := by
  simp [MotionState.reserve, h]

/-- C1: when a motion currently holds the reservation/playing slot at
priority `p1`, a `reserve (g, i, p2)` with `p2 ≤ p1` and `p2 ≠ FORCE`
returns false and leaves the `MotionState` unchanged, while any `p2 > p1`,
or `p2 = FORCE`, returns true and evicts the prior claim, replacing it with
`(g, i, p2)`. -/
theorem C1_reserve_arbitration (s : MotionState) (p1 : MotionPriority)
    (h : s.currentPrio = p1.val) (g : String) (i : Nat) (p2 : MotionPriority) :
    (p2.val ≤ p1.val ∧ p2 ≠ .FORCE → s.reserve g i p2 = (false, s)) ∧
    (p1.val < p2.val ∨ p2 = .FORCE →
      s.reserve g i p2 =
        (true, { reserved := some ⟨g, i, p2⟩, playing := none,
                 restoreFlag := s.restoreFlag })) := by
  constructor
  · rintro ⟨hle, hne⟩
    have hcond : ¬(p2 = .FORCE ∨ s.currentPrio < p2.val) := by
      rintro (hF | hlt)
      · exact hne hF
      · rw [h] at hlt; omega
    simp [MotionState.reserve, hcond]
  · intro hgt
    apply reserve_eviction
    rcases hgt with hlt | hF
    · right; rw [h]; exact hlt
    · left; exact hF

/-- C1 witness: with `("a", 0, NORMAL)` playing, an equal-priority request
is refused and the state kept, while a FORCE request evicts it. -/
theorem C1_reserve_arbitration_witness :
    (MotionState.reserve ⟨none, some ⟨"a", 0, .NORMAL⟩, false⟩ "b" 1 .NORMAL =
      (false, ⟨none, some ⟨"a", 0, .NORMAL⟩, false⟩)) ∧
    (MotionState.reserve ⟨none, some ⟨"a", 0, .NORMAL⟩, false⟩ "b" 1 .FORCE =
      (true, ⟨some ⟨"b", 1, .FORCE⟩, none, false⟩)) :=
  ⟨(C1_reserve_arbitration ⟨none, some ⟨"a", 0, .NORMAL⟩, false⟩ .NORMAL rfl
      "b" 1 .NORMAL).1 ⟨by decide, by decide⟩,
   (C1_reserve_arbitration ⟨none, some ⟨"a", 0, .NORMAL⟩, false⟩ .NORMAL rfl
      "b" 1 .FORCE).2 (Or.inr rfl)⟩

/-- Helper: while a sound is playing, `startMotion` resolves false at once,
touching nothing. -/
theorem startMotion_of_playingSound (cfg : Bool) (m : Manager) (g : String)
    (i : Nat) (p : MotionPriority) (sound spkExpr : Option Nat)
    (il : MotionState → MotionState) (h : m.playingSound = true) :
    startMotion cfg m g i p sound spkExpr il =
      .ok { ok := false, mgr := m, reserveCalled := false, loadCalled := false,
            soundInstance := none, soundStopped := false,
            soundDestroyed := false, events := [] } := by
  simp [startMotion, h]

/-- C3: whenever `playingSound` is true, `startMotion` returns false
immediately: the manager is unchanged, `MotionState.reserve` is never
invoked, no motion load is attempted, no sound is started and nothing is
emitted. -/
theorem C3_playing_sound_fail_fast (cfg : Bool) (m : Manager) (g : String)
    (i : Nat) (p : MotionPriority) (sound spkExpr : Option Nat)
    (il : MotionState → MotionState) (h : m.playingSound = true) :
    startMotion cfg m g i p sound spkExpr il =
      .ok { ok := false, mgr := m, reserveCalled := false, loadCalled := false,
            soundInstance := none, soundStopped := false,
            soundDestroyed := false, events := [] } :=
  startMotion_of_playingSound cfg m g i p sound spkExpr il h

/-- C3 witness: a concrete manager flagged as playing sound is refused. -/
theorem C3_playing_sound_fail_fast_witness :
    startMotion true { baseMgr with playingSound := true } "idle" 0 .NORMAL
        none none id =
      .ok { ok := false, mgr := { baseMgr with playingSound := true },
            reserveCalled := false, loadCalled := false, soundInstance := none,
            soundStopped := false, soundDestroyed := false, events := [] } :=
  C3_playing_sound_fail_fast true { baseMgr with playingSound := true }
    "idle" 0 .NORMAL none none id rfl

/-- C10: `stopSpeaking` clears only the analyser reference — `playingSound`
and `currentSound` survive, also through `stopAllMotions`; consequently any
`startMotion` issued while `playingSound` is still true resolves false with
no state change, until the sound's own completion callback clears the
flag. -/
theorem C10_stop_speaking_scope (m : Manager) :
    (stopSpeaking m = { m with currentAnalyser := none }) ∧
    ((stopAllMotions m).1.playingSound = m.playingSound ∧
     (stopAllMotions m).1.currentSound = m.currentSound) ∧
    (m.playingSound = true → ∀ cfg g i p sound spkExpr il,
      startMotion cfg m g i p sound spkExpr il =
        .ok { ok := false, mgr := m, reserveCalled := false,
              loadCalled := false, soundInstance := none,
              soundStopped := false, soundDestroyed := false, events := [] }) ∧
    (∀ e, (soundComplete m e).1.playingSound = false) := by
  refine ⟨?_, ?_, ?_, ?_⟩
  · obtain ⟨d, mg, st, ma, de, ps, cs, ca, so, he, ig⟩ := m
    cases ca <;> simp [stopSpeaking]
  · unfold stopAllMotions stopSpeaking
    constructor <;> split <;> rfl
  · intro h cfg g i p sound spkExpr il
    exact startMotion_of_playingSound cfg m g i p sound spkExpr il h
  · intro e
    rfl

/-- C10 witness: with a sound playing, `stopAllMotions` leaves the flag up,
`startMotion` is refused, and the completion callback clears the flag. -/
theorem C10_stop_speaking_scope_witness :
    ((stopAllMotions { baseMgr with playingSound := true }).1.playingSound = true) ∧
    (startMotion true { baseMgr with playingSound := true } "idle" 0 .NORMAL
        none none id =
      .ok { ok := false, mgr := { baseMgr with playingSound := true },
            reserveCalled := false, loadCalled := false, soundInstance := none,
            soundStopped := false, soundDestroyed := false, events := [] }) ∧
    ((soundComplete { baseMgr with playingSound := true } none).1.playingSound = false) :=
  ⟨(C10_stop_speaking_scope { baseMgr with playingSound := true }).2.1.1,
   (C10_stop_speaking_scope { baseMgr with playingSound := true }).2.2.1 rfl
     true "idle" 0 .NORMAL none none id,
   (C10_stop_speaking_scope { baseMgr with playingSound := true }).2.2.2 none⟩

/-- C5: `update` always returns exactly the `updateParameters` result; when
playback is not finished nothing else happens, and when it is finished the
finish notification fires exactly if a motion was active, the expression
override is restored exactly when `shouldOverrideExpression` holds (and an
expression manager exists), the state is folded through `complete`, and an
idle random motion is kicked off (un-awaited) exactly when
`shouldRequestIdleMotion` holds afterwards. -/
theorem C5_update_frame (m : Manager) (isFin updParams : Bool) :
    (update m isFin updParams).res = updParams ∧
    (isFin = false → update m isFin updParams = ⟨updParams, m, []⟩) ∧
    (isFin = true →
      (update m isFin updParams).mgr.state = m.state.complete ∧
      (update m isFin updParams).mgr.motionActive = false ∧
      (Ev.motionFinish ∈ (update m isFin updParams).events ↔
        m.motionActive = true) ∧
      (Ev.restoreExpression ∈ (update m isFin updParams).events ↔
        (m.state.shouldOverrideExpression = true ∧ m.hasExpressionManager = true)) ∧
      (Ev.idleMotionRequest m.idleGroup .IDLE ∈ (update m isFin updParams).events ↔
        m.state.complete.shouldRequestIdleMotion = true)) := by
  refine ⟨?_, ?_, ?_⟩
  · unfold update
    split <;> rfl
  · intro h
    subst h
    rfl
  · intro h
    subst h
    obtain ⟨d, mg, st, ma, de, ps, cs, ca, so, he, ig⟩ := m
    obtain ⟨res, pl, rf⟩ := st
    cases ma <;> cases rf <;> cases he <;> cases res <;> cases pl <;>
      simp [update, MotionState.complete, MotionState.shouldOverrideExpression,
        MotionState.shouldRequestIdleMotion]

/-- C5 witness: a finished frame with an active motion on the baseline
manager emits the finish notification and requests an idle motion, and an
unfinished frame passes the parameter result through untouched. -/
theorem C5_update_frame_witness :
    (update { baseMgr with motionActive := true } false true =
      ⟨true, { baseMgr with motionActive := true }, []⟩) ∧
    (Ev.motionFinish ∈ (update { baseMgr with motionActive := true } true true).events) ∧
    (Ev.idleMotionRequest "idle" .IDLE ∈
      (update { baseMgr with motionActive := true } true true).events) :=
  ⟨(C5_update_frame { baseMgr with motionActive := true } false true).2.1 rfl,
   (((C5_update_frame { baseMgr with motionActive := true } true true).2.2 rfl).2.2.1).mpr rfl,
   (((C5_update_frame { baseMgr with motionActive := true } true true).2.2 rfl).2.2.2.2).mpr rfl⟩

/-- C9 counterexample: the claim says a second `destroy()` performs no
further observable side effects and in particular emits no second
`destroy` event; on the code, the second call does emit `destroy` again
(there is no re-entry guard). -/
theorem C9_destroy_counterexample :
    Ev.destroyEvent ∈ (destroy (destroy baseMgr).1).2 := by decide

/-- C9 (amended): `destroy()` is idempotent on the manager state and does
not throw on a second call, but the second call repeats the observable
teardown: it emits `destroy` again, invokes the runtime-level motion stop
again, and destroys the expression manager again when one is present. -/
theorem C9_destroy_amended (m : Manager) :
    (destroy (destroy m).1).1 = (destroy m).1 ∧
    (destroy (destroy m).1).2 =
      Ev.destroyEvent :: Ev.runtimeStopAll ::
        (if m.hasExpressionManager then [Ev.expressionManagerDestroy] else []) := by
  obtain ⟨d, mg, st, ma, de, ps, cs, ca, so, he, ig⟩ := m
  cases ca <;> cases he <;>
    simp [destroy, stopAllMotions, stopSpeaking]

/-- Helper: rounding to one decimal keeps non-negative values
non-negative. -/
theorem round1_nonneg {x : ℝ} (hx : 0 ≤ x) : 0 ≤ round1 x := by
  unfold round1
  have h : (0 : ℤ) ≤ round (x * 10) := by
    rw [round_eq]
    refine Int.le_floor.mpr ?_
    push_cast
    linarith
  have hc : (0 : ℝ) ≤ ((round (x * 10) : ℤ) : ℝ) := by exact_mod_cast h
  exact div_nonneg hc (by norm_num)

/-- Helper: rounding zero to one decimal gives zero. -/
theorem round1_zero : round1 0 = 0 := by
  simp [round1]

/-- C8: `mouthSync` returns exactly `0` with no analyser attached, else the
root-mean-square amplitude scaled by 20 under the square root and rounded
to one decimal, which is never negative; a silent (all-zero) buffer yields
`0`. -/
theorem C8_mouth_sync (m : Manager) (buf : List ℚ) :
    (m.currentAnalyser = none → mouthSync m buf = 0) ∧
    (∀ a, m.currentAnalyser = some a →
      mouthSync m buf =
        round1 (Real.sqrt (((sumSquares buf / buf.length) * 20 : ℚ)))) ∧
    0 ≤ mouthSync m buf ∧
    (∀ n, mouthSync m (List.replicate n 0) = 0) := by
  refine ⟨?_, ?_, ?_, ?_⟩
  · intro h
    simp [mouthSync, h]
  · intro a h
    simp [mouthSync, h]
  · cases h : m.currentAnalyser with
    | none => simp [mouthSync, h]
    | some a =>
      simp only [mouthSync, h]
      exact round1_nonneg (Real.sqrt_nonneg _)
  · intro n
    cases h : m.currentAnalyser with
    | none => simp [mouthSync, h]
    | some a =>
      have hz : sumSquares (List.replicate n 0) = 0 := by
        simp [sumSquares]
      simp [mouthSync, h, hz, Real.sqrt_zero, round1_zero]

/-- C8 witness: the baseline manager (no analyser) reads `0`, and a silent
three-sample buffer reads `0` with an analyser attached. -/
theorem C8_mouth_sync_witness :
    mouthSync baseMgr [] = 0 ∧
    mouthSync { baseMgr with currentAnalyser := some 1 } (List.replicate 3 0) = 0 :=
  ⟨(C8_mouth_sync baseMgr []).1 rfl,
   (C8_mouth_sync { baseMgr with currentAnalyser := some 1 }
      (List.replicate 3 0)).2.2.2 3⟩

/-- Helper: under the setup invariant, a group found in `definitions` is
also present in `motionGroups`. -/
theorem lookupGroup_aligned {defs : List (String × List Nat)}
    {mgs : List (String × List Slot)} (ha : groupsAligned defs mgs = true)
    {g : String} {l : List Nat} (hl : lookupGroup defs g = some l) :
    ∃ slots, lookupGroup mgs g = some slots := by
  unfold lookupGroup at hl
  obtain ⟨q, hfind, hq2⟩ := Option.map_eq_some'.mp hl
  have hmem : q ∈ defs := List.mem_of_find?_eq_some hfind
  have hbeq := List.find?_some hfind
  have hg : q.1 = g := by simpa using hbeq
  unfold groupsAligned at ha
  have hall := List.all_eq_true.mp ha q hmem
  rw [hg] at hall
  exact Option.isSome_iff_exists.mp (by simpa using hall)

/-- Helper: under the setup invariant `loadMotion` never rejects. -/
theorem loadMotion_ok (m : Manager) (g : String) (i : Nat)
    {defs : List (String × List Nat)} {mgs : List (String × List Slot)}
    (hd : m.definitions = some defs) (hm : m.motionGroups = some mgs)
    (ha : groupsAligned defs mgs = true) :
    ∃ out, loadMotion m g i = .ok out := by
  unfold loadMotion
  simp only [hd]
  cases hda : defAt defs g i with
  | none => exact ⟨_, rfl⟩
  | some d =>
    simp only [hm]
    unfold defAt at hda
    obtain ⟨l, hl, _⟩ := Option.bind_eq_some.mp hda
    obtain ⟨slots, hsl⟩ := lookupGroup_aligned ha hl
    simp only [hsl]
    cases hsa : slotAt slots i <;> simp only [hsa] <;> exact ⟨_, rfl⟩

/-- Helper: under the setup invariant the middle phase of `startMotion`
resolves. -/
theorem startMotionLoad_ok (cfg : Bool) (m1 : Manager) (g : String) (i : Nat)
    (p : MotionPriority) (sound spkExpr : Option Nat)
    (il : MotionState → MotionState)
    {defs : List (String × List Nat)} {mgs : List (String × List Slot)}
    (hd : m1.definitions = some defs) (hm : m1.motionGroups = some mgs)
    (ha : groupsAligned defs mgs = true) :
    ∃ r, startMotionLoad cfg m1 g i p sound spkExpr il = .ok r := by
  unfold startMotionLoad
  simp only [hd]
  cases hda : defAt defs g i with
  | none => exact ⟨_, rfl⟩
  | some d =>
    obtain ⟨out, hout⟩ := loadMotion_ok m1 g i hd hm ha
    obtain ⟨motion, evLoad⟩ := out
    simp only [hout]
    exact ⟨_, rfl⟩

/-- Helper: under the setup invariant `startMotion` never rejects its
promise: every run resolves with a boolean. -/
theorem startMotion_ok (cfg : Bool) (m : Manager) (g : String) (i : Nat)
    (p : MotionPriority) (sound spkExpr : Option Nat)
    (il : MotionState → MotionState)
    {defs : List (String × List Nat)} {mgs : List (String × List Slot)}
    (hd : m.definitions = some defs) (hm : m.motionGroups = some mgs)
    (ha : groupsAligned defs mgs = true) :
    ∃ r, startMotion cfg m g i p sound spkExpr il = .ok r := by
  unfold startMotion
  split
  · exact ⟨_, rfl⟩
  · rcases hrv : m.state.reserve g i p with ⟨okR, st1⟩
    cases okR with
    | false => exact ⟨_, rfl⟩
    | true =>
      exact startMotionLoad_ok cfg { m with state := st1 } g i p sound spkExpr
        il (by exact hd) (by exact hm) ha

/-- Helper: when the commit phase rejects after a sound instance was
started, the instance is stopped and destroyed and the call resolves
false. -/
theorem commitMotion_reject_sound (m2 : Manager) (g : String) (i : Nat)
    (p2 : MotionPriority) (motion : Option Nat) (si : Option Nat)
    (sound spkExpr : Option Nat) (evPre : List Ev) (s : Nat)
    (hs : (commitMotion m2 g i p2 motion si sound spkExpr evPre).soundInstance = some s)
    (hf : (commitMotion m2 g i p2 motion si sound spkExpr evPre).ok = false) :
    (commitMotion m2 g i p2 motion si sound spkExpr evPre).soundStopped = true ∧
    (commitMotion m2 g i p2 motion si sound spkExpr evPre).soundDestroyed = true ∧
    Ev.soundStop s ∈ (commitMotion m2 g i p2 motion si sound spkExpr evPre).events ∧
    Ev.soundDestroy s ∈ (commitMotion m2 g i p2 motion si sound spkExpr evPre).events := by
  cases hstart : (m2.state.start motion g i p2).1 with
  | true =>
    simp only [commitMotion, hstart] at hf
    simp at hf
  | false =>
    cases si with
    | none =>
      simp only [commitMotion, hstart] at hs
      simp at hs
    | some s0 =>
      have hss : s0 = s := by
        simp only [commitMotion, hstart] at hs
        simpa using hs
      subst hss
      simp [commitMotion, hstart]

/-- Helper: the middle phase of `startMotion` stops and destroys a started
sound instance whenever it resolves false with that instance recorded. -/
theorem startMotionLoad_reject_sound (cfg : Bool) (m1 : Manager) (g : String)
    (i : Nat) (p : MotionPriority) (sound spkExpr : Option Nat)
    (il : MotionState → MotionState) (r : StartResult) (s : Nat)
    (hr : startMotionLoad cfg m1 g i p sound spkExpr il = .ok r)
    (hs : r.soundInstance = some s) (hfail : r.ok = false) :
    r.soundStopped = true ∧ r.soundDestroyed = true ∧
    Ev.soundStop s ∈ r.events ∧ Ev.soundDestroy s ∈ r.events := by
  unfold startMotionLoad at hr
  split at hr
  · cases hr
  · split at hr
    · injection hr with h
      subst h
      simp at hs
    · split at hr
      · cases hr
      · injection hr with h
        subst h
        exact commitMotion_reject_sound _ g i _ _ _ sound spkExpr _ s hs hfail

/-- C2: whenever a `startMotion` run resolves false while a sound instance
had been started (the state-machine commit `state.start` was rejected after
the awaits), that sound instance is stopped and destroyed — no orphaned
playback. -/
theorem C2_commit_reject_stops_sound (cfg : Bool) (m : Manager) (g : String)
    (i : Nat) (p : MotionPriority) (sound spkExpr : Option Nat)
    (il : MotionState → MotionState) (r : StartResult) (s : Nat)
    (hr : startMotion cfg m g i p sound spkExpr il = .ok r)
    (hs : r.soundInstance = some s) (hfail : r.ok = false) :
    r.soundStopped = true ∧ r.soundDestroyed = true ∧
    Ev.soundStop s ∈ r.events ∧ Ev.soundDestroy s ∈ r.events := by
  unfold startMotion at hr
  split at hr
  · injection hr with h
    subst h
    simp at hs
  · rcases hrv : m.state.reserve g i p with ⟨okR, st1⟩
    rw [hrv] at hr
    cases okR with
    | false =>
      injection hr with h
      subst h
      simp at hs
    | true =>
      exact startMotionLoad_reject_sound cfg { m with state := st1 } g i p
        sound spkExpr il r s (by exact hr) hs hfail

/-- C2 witness: in the concrete superseded run the started sound instance 9
is stopped and destroyed. -/
theorem C2_commit_reject_stops_sound_witness :
    rC2.soundStopped = true ∧ rC2.soundDestroyed = true ∧
    Ev.soundStop 9 ∈ rC2.events ∧ Ev.soundDestroy 9 ∈ rC2.events :=
  C2_commit_reject_stops_sound true mC2 "g" 0 .NORMAL (some 9) none ilC2
    rC2 9 rfl rfl rfl

/-- C4: `startRandomMotion` only ever delegates to `startMotion` with an
index that is eligible — its slot is not marked failed and it is not the
active motion — and it chooses uniformly among the eligible indices: the
candidate list enumerates exactly the eligible indices without repetition
and the random draw `rnd` picks exactly its `rnd`-th element; when the
group is absent, empty, or has no eligible candidate, the call resolves
false without delegating. -/
theorem C4_random_eligible_selection (cfg : Bool) (m : Manager) (g : String)
    (p : Option MotionPriority) (sound : Option Nat)
    (il : MotionState → MotionState) (defs : List (String × List Nat))
    (mgs : List (String × List Slot)) (hd : m.definitions = some defs)
    (hm : m.motionGroups = some mgs) (ha : groupsAligned defs mgs = true) :
    (∀ slots len j, j ∈ eligibleIndices m.state g slots len ↔
       (j < len ∧ slotAt slots j ≠ Slot.failed ∧ m.state.isActive g j = false)) ∧
    (∀ slots len, (eligibleIndices m.state g slots len).Nodup) ∧
    (∀ rnd r, startRandomMotion cfg m g p sound rnd il = .ok r →
       ∀ j, r.delegated = some j →
         ∃ gdefs slots, lookupGroup defs g = some gdefs ∧
           lookupGroup mgs g = some slots ∧
           j ∈ eligibleIndices m.state g slots gdefs.length) ∧
    (∀ rnd,
       (∀ gdefs slots, lookupGroup defs g = some gdefs →
          lookupGroup mgs g = some slots →
          eligibleIndices m.state g slots gdefs.length = []) →
       startRandomMotion cfg m g p sound rnd il =
         .ok { res := false, mgr := m, delegated := none, events := [] }) ∧
    (∀ gdefs slots, lookupGroup defs g = some gdefs →
       lookupGroup mgs g = some slots →
       ∀ rnd, ∀ h : rnd < (eligibleIndices m.state g slots gdefs.length).length,
         ∃ r, startRandomMotion cfg m g p sound rnd il = .ok r ∧
           r.delegated =
             some ((eligibleIndices m.state g slots gdefs.length).get ⟨rnd, h⟩)) := by
  refine ⟨?_, ?_, ?_, ?_, ?_⟩
  · intro slots len j
    simp [eligibleIndices, List.mem_filter, List.mem_range, Bool.and_eq_true,
      bne_iff_ne, Bool.not_eq_true']
  · intro slots len
    exact List.Nodup.filter _ (List.nodup_range len)
  · intro rnd r hr j hj
    unfold startRandomMotion at hr
    simp only [hd] at hr
    cases hlg : lookupGroup defs g with
    | none =>
      rw [hlg] at hr
      injection hr with h
      subst h
      simp at hj
    | some gdefs =>
      simp only [hlg] at hr
      by_cases hlen : gdefs.length = 0
      · rw [if_pos hlen] at hr
        injection hr with h
        subst h
        simp at hj
      · rw [if_neg hlen] at hr
        simp only [hm] at hr
        cases hsl : lookupGroup mgs g with
        | none =>
          rw [hsl] at hr
          cases hr
        | some slots =>
          simp only [hsl] at hr
          by_cases hemp : (eligibleIndices m.state g slots gdefs.length).isEmpty = true
          · rw [if_pos hemp] at hr
            injection hr with h
            subst h
            simp at hj
          · rw [if_neg hemp] at hr
            cases hget : (eligibleIndices m.state g slots gdefs.length).get? rnd with
            | none =>
              rw [hget] at hr
              injection hr with h
              subst h
              simp at hj
            | some k =>
              simp only [hget] at hr
              cases hsm : startMotion cfg m g k (p.getD .NORMAL) sound none il with
              | error e =>
                rw [hsm] at hr
                cases hr
              | ok r0 =>
                simp only [hsm] at hr
                injection hr with h
                subst h
                simp only at hj
                have hk : k = j := by simpa using hj
                subst hk
                exact ⟨gdefs, slots, rfl, rfl, List.get?_mem hget⟩
  · intro rnd hempty
    unfold startRandomMotion
    simp only [hd]
    cases hlg : lookupGroup defs g with
    | none => rfl
    | some gdefs =>
      obtain ⟨slots, hsl⟩ := lookupGroup_aligned ha hlg
      have he : eligibleIndices m.state g slots gdefs.length = [] :=
        hempty gdefs slots hlg hsl
      by_cases hlen : gdefs.length = 0
      · simp [hlen]
      · simp [hlen, hm, hsl, he]
  · intro gdefs slots hlg hsl rnd h
    obtain ⟨r0, hr0⟩ := startMotion_ok cfg m g
      ((eligibleIndices m.state g slots gdefs.length).get ⟨rnd, h⟩)
      (p.getD .NORMAL) sound none il hd hm ha
    have hmem := List.get_mem (eligibleIndices m.state g slots gdefs.length) rnd h
    have hlt : (eligibleIndices m.state g slots gdefs.length).get ⟨rnd, h⟩ < gdefs.length := by
      have := hmem
      simp only [eligibleIndices, List.mem_filter, List.mem_range] at this
      exact this.1
    have hlen : ¬gdefs.length = 0 := by omega
    have hne : ¬(eligibleIndices m.state g slots gdefs.length).isEmpty = true := by
      intro hcl
      rw [List.isEmpty_iff] at hcl
      rw [hcl] at h
      simp at h
    refine ⟨{ res := r0.ok, mgr := r0.mgr,
              delegated := some ((eligibleIndices m.state g slots gdefs.length).get ⟨rnd, h⟩),
              events := r0.events }, ?_, rfl⟩
    unfold startRandomMotion
    simp only [hd, hlg]
    rw [if_neg hlen]
    simp only [hm, hsl]
    rw [if_neg hne]
    rw [show (eligibleIndices m.state g slots gdefs.length).get? rnd =
        some ((eligibleIndices m.state g slots gdefs.length).get ⟨rnd, h⟩) from
      List.get?_eq_get h]
    simp only [hr0]

/-- C4 witness: with slot 1 failed, the draw can only delegate to index 0. -/
theorem C4_random_eligible_selection_witness :
    ∃ r, startRandomMotion true mC4 "g" none none 0 id = .ok r ∧
      r.delegated = some 0 := by
  obtain ⟨r, hr, hdel⟩ :=
    (C4_random_eligible_selection true mC4 "g" none none id
        [("g", [7, 8])] [("g", [Slot.loaded 5, Slot.failed])] rfl rfl
        (by decide)).2.2.2.2
      [7, 8] [Slot.loaded 5, Slot.failed] rfl rfl 0 (by decide)
  refine ⟨r, hr, ?_⟩
  rw [hdel]
  rfl

/-- C7 counterexample: the claim says `loadMotion` logs a warning whenever
it resolves `undefined`, including for a not-yet-loaded slot; on the code,
a present definition whose slot is merely unloaded resolves `undefined`
with no warning at all. -/
theorem C7_load_motion_counterexample :
    loadMotion mC7 "g" 0 = .ok (none, []) := rfl

/-- C7 (amended): `loadMotion` never throws to the caller (under the setup
invariant); it resolves with the loaded handle when the slot holds one, and
resolves with `undefined` — logging a warning only when the definition is
absent or the slot is marked failed — and silently when the slot is merely
not yet loaded; it never mutates the slot table, so a failed slot is never
retried. -/
theorem C7_load_motion_amended (m : Manager) (g : String) (i : Nat)
    (defs : List (String × List Nat)) (mgs : List (String × List Slot))
    (hd : m.definitions = some defs) (hm : m.motionGroups = some mgs)
    (ha : groupsAligned defs mgs = true) :
    (∃ out, loadMotion m g i = .ok out) ∧
    (defAt defs g i = none →
      loadMotion m g i = .ok (none, [Ev.warn "Undefined motion"])) ∧
    (∀ d slots, defAt defs g i = some d → lookupGroup mgs g = some slots →
      (slotAt slots i = Slot.failed →
        loadMotion m g i = .ok (none, [Ev.warn "failed to load"])) ∧
      (∀ h, slotAt slots i = Slot.loaded h → loadMotion m g i = .ok (some h, [])) ∧
      (slotAt slots i = Slot.unloaded → loadMotion m g i = .ok (none, []))) := by
  refine ⟨loadMotion_ok m g i hd hm ha, ?_, ?_⟩
  · intro hda
    unfold loadMotion
    simp [hd, hda]
  · intro d slots hda hsl
    refine ⟨?_, ?_, ?_⟩
    · intro hfa
      unfold loadMotion
      simp [hd, hda, hm, hsl, hfa]
    · intro hh hlo
      unfold loadMotion
      simp [hd, hda, hm, hsl, hlo]
    · intro hun
      unfold loadMotion
      simp [hd, hda, hm, hsl, hun]

/-- C7 witness: a loaded slot resolves with its handle and no warning. -/
theorem C7_load_motion_amended_witness :
    loadMotion mC7b "g" 0 = .ok (some 9, []) :=
  ((C7_load_motion_amended mC7b "g" 0 [("g", [5])] [("g", [Slot.loaded 9])]
      rfl rfl (by decide)).2.2 5 [Slot.loaded 9] rfl rfl).2.1 9 rfl

/-- C6: evaluation of the scenario the claim describes.  The claim says
both idle slots are loaded after construction; on the code the preload pass
loads nothing — `loadMotion` never fetches or stores a motion — so both
slots remain unloaded (they are not failed).  The second half of the claim
does hold: `startRandomMotion "idle"` resolves true and exactly the chosen
index is active. -/
theorem C6_idle_preload_eval :
    mC6.motionGroups = some [("idle", [])] ∧
    slotAt ((lookupGroup [("idle", ([] : List Slot))] "idle").getD []) 0 = Slot.unloaded ∧
    slotAt ((lookupGroup [("idle", ([] : List Slot))] "idle").getD []) 1 = Slot.unloaded ∧
    (∃ r, startRandomMotion true mC6 "idle" none none 0 id = .ok r ∧
      r.res = true ∧ r.delegated = some 0 ∧
      r.mgr.state.isActive "idle" 0 = true ∧
      r.mgr.state.isActive "idle" 1 = false) ∧
    (∃ r, startRandomMotion true mC6 "idle" none none 1 id = .ok r ∧
      r.res = true ∧ r.delegated = some 1 ∧
      r.mgr.state.isActive "idle" 1 = true ∧
      r.mgr.state.isActive "idle" 0 = false) :=
  ⟨rfl, rfl, rfl,
   ⟨_, rfl, rfl, rfl, rfl, rfl⟩,
   ⟨_, rfl, rfl, rfl, rfl, rfl⟩⟩

end PixiLive2D
